import Mathlib

/-!
Verification of the cache subsystem of the satellite-platform application
(`gee_app/utils/cache_utils.py`).

The Python module is shallowly embedded below:
* JSON-serializable Python values become the inductive `JValue`
  (dicts are association lists in insertion order; Python dict keys are
  unique, captured by the well-formedness predicate `JWF`);
* `json.dumps` becomes the pure serializer `dumps`
  (`json.dumps(x, sort_keys=True)` emits objects with keys sorted at every
  nesting level, which we model as `dumps` after the recursive key sort
  `sortAllKeys`, since `dumps` reads fields in list order);
* `hashlib.sha256(...).hexdigest()` becomes `sha256hex`, a full FIPS 180-4
  SHA-256 over the UTF-8 bytes of the string;
* the Redis client and filesystem are modelled by explicit state passing,
  and fallible operations by explicit failure-injection parameters.
-/

namespace CacheUtils

/-- JSON-serializable Python values.  `obj` keeps fields in insertion
order, as Python dicts do; `num` covers the integer payloads exercised by
the module (floats do not occur in any key-derivation input here). -/
inductive JValue where
  | null : JValue
  | bool : Bool → JValue
  | num : Int → JValue
  | str : String → JValue
  | arr : List JValue → JValue
  | obj : List (String × JValue) → JValue

/-- Pairwise distinctness of the keys of a field list (computable). -/
def nodupKeysB : List (String × JValue) → Bool
  | [] => true
  | (k, _) :: fs => !(fs.any (fun e => e.1 == k)) && nodupKeysB fs

mutual

/-- Well-formedness of an embedded Python value: every dict has pairwise
distinct keys (guaranteed by Python's dict semantics), recursively. -/
def jwf : JValue → Bool
  | .null => true
  | .bool _ => true
  | .num _ => true
  | .str _ => true
  | .arr xs => jwfList xs
  | .obj fs => nodupKeysB fs && jwfFields fs

/-- Well-formedness of a list of values (array elements). -/
def jwfList : List JValue → Bool
  | [] => true
  | x :: xs => jwf x && jwfList xs

/-- Well-formedness of the values of a field list. -/
def jwfFields : List (String × JValue) → Bool
  | [] => true
  | (_, v) :: fs => jwf v && jwfFields fs

end

mutual

/-- Structural equality of embedded Python values up to dict key order:
two dicts are equivalent when their field lists agree as sets of
key/value pairs regardless of insertion order (one is related pointwise
to a permutation of the other, values compared recursively); arrays are
compared pointwise, order being meaningful. -/
inductive JEquiv : JValue → JValue → Prop where
  | null : JEquiv .null .null
  | bool (b : Bool) : JEquiv (.bool b) (.bool b)
  | num (n : Int) : JEquiv (.num n) (.num n)
  | str (s : String) : JEquiv (.str s) (.str s)
  | arr {xs ys : List JValue} : JEquivList xs ys → JEquiv (.arr xs) (.arr ys)
  | obj {fs gs gs' : List (String × JValue)} :
      List.Perm gs' gs → JEquivFields fs gs' → JEquiv (.obj fs) (.obj gs)

/-- Pointwise equivalence of array elements. -/
inductive JEquivList : List JValue → List JValue → Prop where
  | nil : JEquivList [] []
  | cons {x y : JValue} {xs ys : List JValue} :
      JEquiv x y → JEquivList xs ys → JEquivList (x :: xs) (y :: ys)

/-- Pointwise equivalence of field lists: equal keys, equivalent values. -/
inductive JEquivFields : List (String × JValue) → List (String × JValue) → Prop where
  | nil : JEquivFields [] []
  | cons (k : String) {v w : JValue} {fs gs : List (String × JValue)} :
      JEquiv v w → JEquivFields fs gs → JEquivFields ((k, v) :: fs) ((k, w) :: gs)

end

/-- Python's `<` on strings: strict lexicographic comparison of the
code-point sequences. -/
def charsLt : List Char → List Char → Bool
  | [], [] => false
  | [], _ :: _ => true
  | _ :: _, [] => false
  | c :: cs, d :: ds =>
    if c.toNat < d.toNat then true
    else if d.toNat < c.toNat then false
    else charsLt cs ds

/-- Key comparison used by Python's `sorted(obj.items())`: tuples compare
by their first component first, and dict keys are distinct, so the sort
orders fields ascending by code-point-lexicographic key order.  `a ≼ b`
is "b's key is not strictly below a's". -/
def fieldLe (a b : String × JValue) : Prop := charsLt b.1.data a.1.data = false

instance : DecidableRel fieldLe :=
  fun a b => inferInstanceAs (Decidable (charsLt b.1.data a.1.data = false))

/-- Sorting a field list by key, as `sorted(obj.items())` does. -/
def sortFields (fs : List (String × JValue)) : List (String × JValue) :=
  List.insertionSort fieldLe fs

/-- The strict version of `fieldLe`, used to show that sorting a
duplicate-free field list is permutation-invariant. -/
def fieldLt (a b : String × JValue) : Prop := charsLt a.1.data b.1.data = true

mutual

/-- `sort_dict_recursive` (cache_utils.py:681-686): sorts dict keys at every
nesting level, descending into nested dicts and lists.  The Python code
sorts the items first and then recurses into the values; since the sort
compares keys only (dict keys are distinct) the two orders commute, and we
recurse first so that the recursion is structural.  The same transformation
also models the effect of `sort_keys=True` in `json.dumps`. -/
def sort_dict_recursive : JValue → JValue
  | .obj fs => .obj (sortFields (sortValuesFields fs))
  | .arr xs => .arr (sortValuesList xs)
  | v => v

/-- `sort_dict_recursive` mapped over array elements. -/
def sortValuesList : List JValue → List JValue
  | [] => []
  | x :: xs => sort_dict_recursive x :: sortValuesList xs

/-- `sort_dict_recursive` mapped over the values of a field list. -/
def sortValuesFields : List (String × JValue) → List (String × JValue)
  | [] => []
  | (k, v) :: fs => (k, sort_dict_recursive v) :: sortValuesFields fs

end

/-- Lowercase hexadecimal digit, as Python's `%04x`/`hexdigest` emit. -/
def hexDigitChar (n : Nat) : Char :=
  if n = 0 then '0' else if n = 1 then '1' else if n = 2 then '2'
  else if n = 3 then '3' else if n = 4 then '4' else if n = 5 then '5'
  else if n = 6 then '6' else if n = 7 then '7' else if n = 8 then '8'
  else if n = 9 then '9' else if n = 10 then 'a' else if n = 11 then 'b'
  else if n = 12 then 'c' else if n = 13 then 'd' else if n = 14 then 'e'
  else 'f'

/-- Big-endian fixed-width lowercase hex rendering of a natural number. -/
def hexDigits : Nat → Nat → List Char
  | 0, _ => []
  | k + 1, n => hexDigits k (n / 16) ++ [hexDigitChar (n % 16)]

/-- Four-hex-digit rendering, used by JSON `\uXXXX` escapes. -/
def hex4 (n : Nat) : String := String.mk (hexDigits 4 n)

/-- Escaping of one character by `json.dumps` with its default
`ensure_ascii=True`: printable ASCII passes through, the two JSON
metacharacters and the short control escapes are backslashed, everything
else becomes `\uXXXX` (with surrogate pairs above the BMP). -/
def escapeChar (c : Char) : String :=
  if c = '"' then "\\\""
  else if c = '\\' then "\\\\"
  else if c = '\n' then "\\n"
  else if c = '\r' then "\\r"
  else if c = '\t' then "\\t"
  else if c = '\x08' then "\\b"
  else if c = '\x0c' then "\\f"
  else if c.toNat < 0x20 then "\\u" ++ hex4 c.toNat
  else if c.toNat < 0x7f then String.singleton c
  else if c.toNat < 0x10000 then "\\u" ++ hex4 c.toNat
  else
    let v := c.toNat - 0x10000
    "\\u" ++ hex4 (0xd800 + v / 0x400) ++ "\\u" ++ hex4 (0xdc00 + v % 0x400)

/-- JSON string-body escaping (the quotes are added by the caller). -/
def escapeString (s : String) : String :=
  s.data.foldl (fun acc c => acc ++ escapeChar c) ""

mutual

/-- `json.dumps` with its default separators `", "` and `": "` and
`ensure_ascii=True`, over the embedded values.  `sort_keys=True` is
modelled by pre-applying `sort_dict_recursive` (see there). -/
def dumps : JValue → String
  | .null => "null"
  | .bool true => "true"
  | .bool false => "false"
  | .num n => toString n
  | .str s => "\"" ++ escapeString s ++ "\""
  | .arr xs => "[" ++ dumpsList xs ++ "]"
  | .obj fs => "\x7b" ++ dumpsFields fs ++ "\x7d"

/-- Comma-separated serialization of array elements. -/
def dumpsList : List JValue → String
  | [] => ""
  | [x] => dumps x
  | x :: y :: rest => dumps x ++ ", " ++ dumpsList (y :: rest)

/-- Comma-separated serialization of object fields. -/
def dumpsFields : List (String × JValue) → String
  | [] => ""
  | [(k, v)] => "\"" ++ escapeString k ++ "\": " ++ dumps v
  | (k, v) :: kv :: rest =>
      "\"" ++ escapeString k ++ "\": " ++ dumps v ++ ", " ++ dumpsFields (kv :: rest)

end

/-- UTF-8 encoding of one code point (as `str.encode('utf-8')` does). -/
def utf8EncodeCharNat (n : Nat) : List Nat :=
  if n < 0x80 then [n]
  else if n < 0x800 then [0xc0 + n / 0x40, 0x80 + n % 0x40]
  else if n < 0x10000 then
    [0xe0 + n / 0x1000, 0x80 + (n / 0x40) % 0x40, 0x80 + n % 0x40]
  else
    [0xf0 + n / 0x40000, 0x80 + (n / 0x1000) % 0x40,
     0x80 + (n / 0x40) % 0x40, 0x80 + n % 0x40]

/-- UTF-8 bytes of a string (`serialized.encode('utf-8')`). -/
def utf8Bytes (s : String) : List Nat :=
  s.data.foldr (fun c acc => utf8EncodeCharNat c.toNat ++ acc) []

/-! SHA-256 (FIPS 180-4), modelling `hashlib.sha256(...).hexdigest()`.
All word arithmetic is over `Nat` reduced modulo `2 ^ 32`. -/

/-- Truncation to a 32-bit word. -/
def u32 (n : Nat) : Nat := n % 4294967296

/-- 32-bit right rotation. -/
def rotr (k n : Nat) : Nat := u32 ((n >>> k) ||| (n <<< (32 - k)))

/-- Big sigma 0. -/
def bsig0 (x : Nat) : Nat := (rotr 2 x) ^^^ (rotr 13 x) ^^^ (rotr 22 x)

/-- Big sigma 1. -/
def bsig1 (x : Nat) : Nat := (rotr 6 x) ^^^ (rotr 11 x) ^^^ (rotr 25 x)

/-- Small sigma 0. -/
def ssig0 (x : Nat) : Nat := (rotr 7 x) ^^^ (rotr 18 x) ^^^ (x >>> 3)

/-- Small sigma 1. -/
def ssig1 (x : Nat) : Nat := (rotr 17 x) ^^^ (rotr 19 x) ^^^ (x >>> 10)

/-- Choice function (the complement is taken inside 32 bits). -/
def chF (x y z : Nat) : Nat := (x &&& y) ^^^ ((x ^^^ 4294967295) &&& z)

/-- Majority function. -/
def majF (x y z : Nat) : Nat := (x &&& y) ^^^ (x &&& z) ^^^ (y &&& z)

/-- The 64 SHA-256 round constants (FIPS 180-4: the first 32 bits of the
fractional parts of the cube roots of the first 64 primes), written in
decimal. -/
def K256 : List Nat :=
  [1116352408, 1899447441, 3049323471, 3921009573, 961987163, 1508970993,
   2453635748, 2870763221, 3624381080, 310598401, 607225278, 1426881987,
   1925078388, 2162078206, 2614888103, 3248222580, 3835390401, 4022224774,
   264347078, 604807628, 770255983, 1249150122, 1555081692, 1996064986,
   2554220882, 2821834349, 2952996808, 3210313671, 3336571891, 3584528711,
   113926993, 338241895, 666307205, 773529912, 1294757372, 1396182291,
   1695183700, 1986661051, 2177026350, 2456956037, 2730485921, 2820302411,
   3259730800, 3345764771, 3516065817, 3600352804, 4094571909, 275423344,
   430227734, 506948616, 659060556, 883997877, 958139571, 1322822218,
   1537002063, 1747873779, 1955562222, 2024104815, 2227730452, 2361852424,
   2428436474, 2756734187, 3204031479, 3329325298]

/-- The initial SHA-256 state (the first 32 bits of the fractional parts
of the square roots of the first 8 primes), written in decimal. -/
def H256 : List Nat :=
  [1779033703, 3144134277, 1013904242, 2773480762, 1359893119, 2600822924,
   528734635, 1541459225]

/-- Big-endian byte rendering of a natural number in `k` bytes. -/
def natToBytesBE : Nat → Nat → List Nat
  | 0, _ => []
  | k + 1, n => natToBytesBE k (n / 256) ++ [n % 256]

/-- SHA-256 message padding: a `0x80` byte, zeros to 56 mod 64, then the
bit length in 8 big-endian bytes. -/
def shaPad (msg : List Nat) : List Nat :=
  let len := msg.length
  let zeros := (64 + 56 - (len + 1) % 64) % 64
  msg ++ 0x80 :: List.replicate zeros 0 ++ natToBytesBE 8 (8 * len)

/-- Groups four bytes into one big-endian 32-bit word. -/
def bytesToWordsBE : List Nat → List Nat
  | b0 :: b1 :: b2 :: b3 :: rest =>
      (((b0 * 256 + b1) * 256 + b2) * 256 + b3) :: bytesToWordsBE rest
  | _ => []

/-- Splits a byte list into 64-byte blocks (fuelled; the fuel is the list
length, which is always enough). -/
def chunks64 : Nat → List Nat → List (List Nat)
  | 0, _ => []
  | _, [] => []
  | fuel + 1, l => l.take 64 :: chunks64 fuel (l.drop 64)

/-- Extends the 16 message-schedule words to 64. -/
def extendW (w : List Nat) (t : Nat) : List Nat :=
  (List.range t).foldl
    (fun acc i =>
      if i < 16 then acc
      else acc ++ [u32 (ssig1 (acc.getD (i - 2) 0) + acc.getD (i - 7) 0 +
                        ssig0 (acc.getD (i - 15) 0) + acc.getD (i - 16) 0)])
    w

/-- One SHA-256 compression of a 64-byte block into the running state. -/
def compress256 (h : List Nat) (block : List Nat) : List Nat :=
  let w := extendW (bytesToWordsBE block) 64
  let final :=
    (List.range 64).foldl
      (fun st t =>
        match st with
        | [a, b, c, d, e, f, g, hh] =>
            let t1 := u32 (hh + bsig1 e + chF e f g + K256.getD t 0 + w.getD t 0)
            let t2 := u32 (bsig0 a + majF a b c)
            [u32 (t1 + t2), a, b, c, u32 (d + t1), e, f, g]
        | other => other)
      h
  List.zipWith (fun x y => u32 (x + y)) h final

/-- SHA-256 of a byte list, as eight 32-bit words. -/
def sha256Words (msg : List Nat) : List Nat :=
  let padded := shaPad msg
  (chunks64 padded.length padded).foldl compress256 H256

/-- `hashlib.sha256(s.encode('utf-8')).hexdigest()`: the 64-character
lowercase hex digest. -/
def sha256hex (s : String) : String :=
  String.mk ((sha256Words (utf8Bytes s)).foldr (fun wd acc => hexDigits 8 wd ++ acc) [])

/-- The key-formatting step shared by every branch of
`_generate_cache_key`: `"cache:" + sha256(serialized).hexdigest()`. -/
def keyOfString (serialized : String) : String :=
  "cache:" ++ sha256hex serialized

/-- Whether a value is a Python dict (`isinstance(x, dict)`). -/
def isObjB : JValue → Bool
  | .obj _ => true
  | _ => false

/-- The `serialized` string computed by `_generate_cache_key`
(cache_utils.py:108-123): dicts are recursively key-sorted and dumped with
`sort_keys=True`; lists are dumped with `sort_keys=True` exactly when some
top-level element is a dict; strings pass through verbatim; other
JSON-serializable scalars are dumped with `sort_keys=False`.  (The
`str(data)` fallback is unreachable for JSON-serializable values.) -/
def serializeCacheInput : JValue → String
  | .obj fs => dumps (sort_dict_recursive (sort_dict_recursive (.obj fs)))
  | .arr xs =>
      if xs.any isObjB then dumps (sort_dict_recursive (.arr xs))
      else dumps (.arr xs)
  | .str s => s
  | v => dumps v

/-- `_generate_cache_key` (cache_utils.py:97-127). -/
def _generate_cache_key (data : JValue) : String :=
  keyOfString (serializeCacheInput data)

/-! The Redis entry store.  The client is external; it is modelled as an
explicit state: an association list from keys to a stored wire value and
its remaining TTL in seconds.  A wire value is either the `json.dumps`
image of a JSON value (which `json.loads` parses back — the round-trip
property of the codec) or a corrupt string that `json.loads` rejects. -/

/-- A value held by the store under one key. -/
inductive Wire where
  | ofJson : JValue → Wire
  | corrupt : String → Wire

/-- `json.loads` on a stored value: succeeds exactly on codec images. -/
def loadsWire : Wire → Option JValue
  | .ofJson v => some v
  | .corrupt _ => none

/-- The state of the Redis store. -/
structure RedisState where
  entries : List (String × Wire × Nat)

/-- `client.get(key)`. -/
def rget (st : RedisState) (k : String) : Option Wire :=
  (st.entries.find? (fun e => e.1 == k)).map (fun e => e.2.1)

/-- `client.ttl(key)`: the remaining TTL, or `-2` when the key is absent
(`-1`, for a key without expiry, cannot arise here because every write in
this module goes through `SETEX`). -/
def rttlInt (st : RedisState) (k : String) : Int :=
  match st.entries.find? (fun e => e.1 == k) with
  | some e => (e.2.2 : Int)
  | none => -2

/-- `SETEX` on the underlying entry list: replaces the value and TTL of an
existing key in place, or appends a fresh entry. -/
def setexList : List (String × Wire × Nat) → String → Wire → Nat → List (String × Wire × Nat)
  | [], k, w, t => [(k, w, t)]
  | e :: rest, k, w, t =>
      if e.1 == k then (k, w, t) :: rest else e :: setexList rest k w t

/-- `client.setex(key, ttl, value)`: stores the value and (re)sets the TTL. -/
def rsetex (st : RedisState) (k : String) (w : Wire) (t : Nat) : RedisState :=
  ⟨setexList st.entries k w t⟩

/-- `EXPIRE` on the underlying entry list: updates the TTL of an existing
key, leaves the state unchanged when the key is absent. -/
def expireList : List (String × Wire × Nat) → String → Nat → List (String × Wire × Nat)
  | [], _, _ => []
  | e :: rest, k, t =>
      if e.1 == k then (e.1, e.2.1, t) :: rest else e :: expireList rest k t

/-- `client.expire(key, ttl)` (the code ignores its return value). -/
def rexpire (st : RedisState) (k : String) (t : Nat) : RedisState :=
  ⟨expireList st.entries k t⟩

/-- `cache_config` (the fields the store operations read; the unused
`compression_level` is omitted). -/
structure Config where
  enabled : Bool
  expiration : Nat

/-- Failure injection for one call into the store layer: `connOk = false`
models `get_redis_client()` raising (its error is caught by each
operation's `except` clauses); `opFail = true` models the first Redis data
operation of the call raising `redis.exceptions.ConnectionError`. -/
structure Env where
  connOk : Bool
  opFail : Bool

/-- First-occurrence lookup in a dict's field list (`d.get(k)` /
`d[k]`; Python dict keys are unique, so first occurrence is the value). -/
def getField : List (String × JValue) → String → Option JValue
  | [], _ => none
  | (k', v) :: fs, k => if k' == k then some v else getField fs k

/-- Python dict assignment `d[k] = v`: overwrites in place when the key is
present, appends otherwise. -/
def setField : List (String × JValue) → String → JValue → List (String × JValue)
  | [], k, v => [(k, v)]
  | (k', v') :: fs, k, v =>
      if k' == k then (k, v) :: fs else (k', v') :: setField fs k v

/-- `increment_request_count` (cache_utils.py:357-413).  Reads the entry,
parses it, bumps `request_count`, and when the key still has a positive
TTL issues `expire(key, max(ttl, default))` followed by
`setex(key, ttl, updated)`.  Every failure path (client unavailable, key
missing, corrupt JSON, a non-dict entry, a raising client call) returns
`none` and leaves the store as the failed call left it (here: unchanged,
since the first client call is the read). -/
def increment_request_count (cfg : Config) (env : Env) (st : RedisState)
    (k : String) : Option Int × RedisState :=
  if !env.connOk then (none, st)
  else if env.opFail then (none, st)
  else
    match rget st k with
    | none => (none, st)
    | some w =>
      match loadsWire w with
      | none => (none, st)
      | some d =>
        match d with
        | .obj fs =>
          let cur? : Option Int :=
            match getField fs "request_count" with
            | some (.num n) => some n
            | none => some 0
            | some _ => none
          match cur? with
          | none => (none, st)
          | some cur =>
            let fs2 := setField fs "request_count" (.num (cur + 1))
            let ttl := rttlInt st k
            if ttl > 0 then
              let newTtl := max ttl (cfg.expiration : Int)
              let st1 := rexpire st k newTtl.toNat
              let st2 := rsetex st1 k (.ofJson (.obj fs2)) ttl.toNat
              (some (cur + 1), st2)
            else (some (cur + 1), st)
        | _ => (none, st)

/-- `get_cached_data_by_key` (cache_utils.py:209-250).  On a hit the entry
is parsed, `increment_request_count` runs, and the parsed value (the whole
stored record) is returned; every failure path yields `none`. -/
def get_cached_data_by_key (cfg : Config) (env : Env) (st : RedisState)
    (k : String) : Option JValue × RedisState :=
  if !cfg.enabled then (none, st)
  else if !env.connOk then (none, st)
  else if env.opFail then (none, st)
  else
    match rget st k with
    | none => (none, st)
    | some w =>
      match loadsWire w with
      | none => (none, st)
      | some d => (some d, (increment_request_count cfg env st k).2)

/-- `get_cached_data` (cache_utils.py:252-271).  Copies the params, never
adds `analysis_type` to them (the copy is used unchanged), derives the key
and delegates. -/
def get_cached_data (cfg : Config) (env : Env) (st : RedisState)
    (params : List (String × JValue)) (_analysisType : String) :
    Option JValue × RedisState :=
  if !cfg.enabled then (none, st)
  else get_cached_data_by_key cfg env st (_generate_cache_key (.obj params))

/-- A payload handed to `store_data_with_key`: either JSON-serializable or
a value `json.dumps` rejects with `TypeError`. -/
inductive PyVal where
  | json : JValue → PyVal
  | notSerializable : String → PyVal

/-- `store_data_with_key` (cache_utils.py:273-320).  Wraps the payload as
`{"data": ..., "cached_at": now, "request_count": 1}` and writes it with
`SETEX`; returns `False` when disabled, when the client is unavailable,
when serialization fails, or when the write raises. -/
def store_data_with_key (cfg : Config) (env : Env) (st : RedisState)
    (k : String) (data : PyVal) (expiration : Option Nat) (now : Int) :
    Bool × RedisState :=
  if !cfg.enabled then (false, st)
  else if !env.connOk then (false, st)
  else
    match data with
    | .notSerializable _ => (false, st)
    | .json v =>
      if env.opFail then (false, st)
      else
        let entry := JValue.obj
          [("data", v), ("cached_at", .num now), ("request_count", .num 1)]
        let expTime := expiration.getD cfg.expiration
        (true, rsetex st k (.ofJson entry) expTime)

/-- `store_data` (cache_utils.py:322-355).  Copies the dict, sets
`data_copy["_type"] = analysis_type` when the type is non-empty, derives
the key from the copy, and stores the original dict under that key;
returns the key on success. -/
def store_data (cfg : Config) (env : Env) (st : RedisState)
    (data : List (String × JValue)) (analysisType : String)
    (expiration : Option Nat) (now : Int) : Option String × RedisState :=
  if !cfg.enabled then (none, st)
  else
    let dataCopy := if analysisType ≠ "" then setField data "_type" (.str analysisType) else data
    let k := _generate_cache_key (.obj dataCopy)
    let res := store_data_with_key cfg env st k (.json (.obj data)) expiration now
    (if res.1 then some k else none, res.2)

/-! The connection manager (`get_redis_client`, cache_utils.py:51-95).
The network is external; one initialization run is modelled by the
sequence of outcomes of its connection attempts. -/

/-- The outcome of one connection attempt (`from_url` + `ping`):
success, a transient `redis.exceptions.ConnectionError`, or an
unexpected exception. -/
inductive AttemptOutcome where
  | success : AttemptOutcome
  | connFail : AttemptOutcome
  | otherFail : AttemptOutcome

/-- The error raised out of `get_redis_client`: `ValueError` for a missing
`REDIS_URL`, or the builtin `ConnectionError` after retries are exhausted
or on an unexpected exception. -/
inductive GRCErr where
  | valueError : GRCErr
  | connectionError : GRCErr
deriving DecidableEq

/-- The retry loop of `get_redis_client`: `i` is the current attempt
index, `remaining` the attempts left (`max_retries - i`); returns the
result, the final value of the module-global `redis_client`, and the list
of back-off sleeps (in seconds, `retry_delay * 2 ** attempt` with
`retry_delay = 1`). -/
def retryLoop (attempts : Nat → AttemptOutcome) :
    Nat → Nat → Except GRCErr Unit × Option Unit × List Nat
  | _, 0 => (.error .connectionError, none, [])
  | i, r + 1 =>
    match attempts i with
    | .success => (.ok (), some (), [])
    | .otherFail => (.error .connectionError, none, [])
    | .connFail =>
      if r = 0 then (.error .connectionError, none, [])
      else
        let rec' := retryLoop attempts (i + 1) r
        (rec'.1, rec'.2.1, 2 ^ i :: rec'.2.2)

/-- `get_redis_client`: returns the cached singleton when present,
otherwise fails fast on a missing URL or runs up to three connection
attempts.  The result triple is (returned value or raised error, final
singleton state, back-off sleeps performed). -/
def get_redis_client (urlSet : Bool) (attempts : Nat → AttemptOutcome)
    (client0 : Option Unit) : Except GRCErr Unit × Option Unit × List Nat :=
  match client0 with
  | some c => (.ok c, some c, [])
  | none =>
    if !urlSet then (.error .valueError, none, [])
    else retryLoop attempts 0 3

/-! The file cache sweep (`clean_expired_files`, cache_utils.py:611-648).
The directory listing is a list of records; `removeFails` injects an
`OSError` into the `os.remove` call for that file.  The single
`try/except` wraps the whole `for` loop. -/

/-- One entry of the cache directory listing. -/
structure FSFile where
  name : String
  isDir : Bool
  mtime : Int
  removeFails : Bool
deriving DecidableEq

/-- The loop body of `clean_expired_files`: returns the removal count,
the surviving listing, and whether the loop was aborted by an exception
(which the enclosing `except` then swallows, returning the count so
far). -/
def cleanLoop (now maxAgeSeconds : Int) : List FSFile → Nat × List FSFile × Bool
  | [] => (0, [], false)
  | f :: rest =>
    if f.isDir then
      let r := cleanLoop now maxAgeSeconds rest
      (r.1, f :: r.2.1, r.2.2)
    else if now - f.mtime > maxAgeSeconds then
      if f.removeFails then (0, f :: rest, true)
      else
        let r := cleanLoop now maxAgeSeconds rest
        (r.1 + 1, r.2.1, r.2.2)
    else
      let r := cleanLoop now maxAgeSeconds rest
      (r.1, f :: r.2.1, r.2.2)

/-- `clean_expired_files(max_age_days)`: sweeps the listing and returns
the number of files removed (also on an aborted sweep, since the
`except` clause returns `removed_count`) together with the surviving
listing. -/
def clean_expired_files (files : List FSFile) (now : Int) (maxAgeDays : Nat) :
    Nat × List FSFile :=
  let r := cleanLoop now ((maxAgeDays : Int) * 86400) files
  (r.1, r.2.1)

/-- Stored `request_count` of the entry under a key, if the key holds a
parseable entry object with a numeric count (used to observe the store in
the popularity-tracking claims). -/
def storedCount (st : RedisState) (k : String) : Option Int :=
  match rget st k with
  | some (.ofJson (.obj fs)) =>
    match getField fs "request_count" with
    | some (.num n) => some n
    | _ => none
  | _ => none

/-- `n` sequential `get_cached_data_by_key` calls on the same key,
threading the store state. -/
def getNTimes (cfg : Config) (env : Env) : Nat → RedisState → String → RedisState
  | 0, st, _ => st
  | n + 1, st, k => getNTimes cfg env n (get_cached_data_by_key cfg env st k).2 k

/-- The configuration with caching enabled and the default 7-day TTL. -/
def cfgOn : Config := ⟨true, 604800⟩

/-- A healthy environment: client available, no operation failure. -/
def envOk : Env := ⟨true, false⟩

/-- The empty store. -/
def st0 : RedisState := ⟨[]⟩

/-! Association-list lemmas about the store primitives. -/

theorem find?_setexList (l : List (String × Wire × Nat)) (k : String) (w : Wire) (t : Nat) :
    (setexList l k w t).find? (fun e => e.1 == k) = some (k, w, t) := by
  induction l with
  | nil => simp [setexList]
  | cons e rest ih =>
    by_cases he : e.1 = k
    · simp [setexList, he]
    · simp [setexList, List.find?, he, ih]

theorem rget_rsetex_self (st : RedisState) (k : String) (w : Wire) (t : Nat) :
    rget (rsetex st k w t) k = some w := by
  simp [rget, rsetex, find?_setexList]

theorem rttl_rsetex_self (st : RedisState) (k : String) (w : Wire) (t : Nat) :
    rttlInt (rsetex st k w t) k = (t : Int) := by
  simp [rttlInt, rsetex, find?_setexList]

/-! ### C3 — disabled cache -/

/-- **C3 counterexample.**  The claim states that with `enabled = false`
a put "succeeds"; the implementation instead reports failure at this
concrete input: `store_data_with_key` returns `False` and `store_data`
returns `None` (while indeed writing nothing). -/
theorem cache_disabled_put_reports_failure :
    store_data_with_key ⟨false, 604800⟩ envOk st0 "k" (.json (.num 1)) none 0 = (false, st0)
    ∧ store_data ⟨false, 604800⟩ envOk st0 [("a", .num 1)] "" none 0 = (none, st0) :=
  ⟨rfl, rfl⟩

/-- **C3 (amended).**  When the cache policy's `enabled` flag is false,
both gets always miss and both puts write nothing to the store and
return their failure indicator (`False` / `None`) without raising, so
caller code that does not branch on the cache's return value is
unaffected. -/
theorem cache_disabled_noop (cfg : Config) (env : Env) (st : RedisState)
    (k : String) (p : PyVal) (params : List (String × JValue))
    (t : String) (exp : Option Nat) (now : Int)
    (hdis : cfg.enabled = false) :
    get_cached_data_by_key cfg env st k = (none, st)
    ∧ get_cached_data cfg env st params t = (none, st)
    ∧ store_data_with_key cfg env st k p exp now = (false, st)
    ∧ store_data cfg env st params t exp now = (none, st) := by
  refine ⟨?_, ?_, ?_, ?_⟩ <;>
    simp [get_cached_data_by_key, get_cached_data, store_data_with_key, store_data, hdis]

/-- Witness for `cache_disabled_noop` at a concrete disabled
configuration. -/
theorem cache_disabled_noop_witness :
    get_cached_data_by_key ⟨false, 604800⟩ envOk st0 "k" = (none, st0)
    ∧ get_cached_data ⟨false, 604800⟩ envOk st0 [("a", .num 1)] "t" = (none, st0)
    ∧ store_data_with_key ⟨false, 604800⟩ envOk st0 "k" (.json (.num 2)) none 5 = (false, st0)
    ∧ store_data ⟨false, 604800⟩ envOk st0 [("a", .num 1)] "t" none 5 = (none, st0) :=
  cache_disabled_noop ⟨false, 604800⟩ envOk st0 "k" (.json (.num 2)) [("a", .num 1)] "t" none 5 rfl

/-! ### C6 — connection retry policy -/

/-- **C6.**  `get_redis_client` retries a transient connection failure up
to 3 attempts, sleeping 1 s then 2 s (exponential backoff, base 1 s,
doubling), raises the typed `ConnectionError` only after the third
failure, and resets the singleton to `None` on failure, so a subsequent
call (here: one whose first attempt succeeds) re-runs initialization from
scratch rather than seeing a poisoned singleton. -/
theorem get_redis_client_retry_policy (a b : Nat → AttemptOutcome)
    (ha : ∀ i, i < 3 → a i = .connFail) (hb : b 0 = .success) :
    get_redis_client true a none = (.error .connectionError, none, [1, 2])
    ∧ get_redis_client true b none = (.ok (), some (), []) := by
  have h0 := ha 0 (by omega)
  have h1 := ha 1 (by omega)
  have h2 := ha 2 (by omega)
  constructor
  · simp [get_redis_client, retryLoop, h0, h1, h2]
  · simp [get_redis_client, retryLoop, hb]

/-- Witness for `get_redis_client_retry_policy`: three straight transient
failures, then a fresh call that succeeds at once. -/
theorem get_redis_client_retry_policy_witness :
    get_redis_client true (fun _ => .connFail) none = (.error .connectionError, none, [1, 2])
    ∧ get_redis_client true (fun _ => .success) none = (.ok (), some (), []) :=
  get_redis_client_retry_policy (fun _ => .connFail) (fun _ => .success) (fun _ _ => rfl) rfl

/-! ### C7 — per-operation error recovery -/

/-- **C7.**  Connectivity or serialization errors inside
`get_cached_data_by_key`, `store_data_with_key` and
`increment_request_count` are converted to the operation's safe default
(`None`, `False`, `None` respectively) with the store untouched, and are
never propagated (the embedded operations are total functions into plain
result × state pairs): this covers a raising `get_redis_client`, a raising
first store operation, a payload `json.dumps` rejects, and a stored value
`json.loads` rejects. -/
theorem store_ops_error_safety (cfg : Config) (env : Env) (st : RedisState)
    (k tag s : String) (p : PyVal) (exp : Option Nat) (now : Int) :
    (env.connOk = false ∨ env.opFail = true →
        get_cached_data_by_key cfg env st k = (none, st)
        ∧ store_data_with_key cfg env st k p exp now = (false, st)
        ∧ increment_request_count cfg env st k = (none, st))
    ∧ store_data_with_key cfg env st k (.notSerializable tag) exp now = (false, st)
    ∧ (rget st k = some (.corrupt s) →
        get_cached_data_by_key cfg env st k = (none, st)
        ∧ increment_request_count cfg env st k = (none, st)) := by
  obtain ⟨co, op⟩ := env
  refine ⟨?_, ?_, ?_⟩
  · rintro (h | h) <;> simp only at h <;> subst h <;>
      cases hen : cfg.enabled <;> cases p <;>
      simp [get_cached_data_by_key, store_data_with_key, increment_request_count, hen]
  · cases hen : cfg.enabled <;> cases co <;> cases op <;>
      simp [store_data_with_key, hen]
  · intro hcor
    cases hen : cfg.enabled <;> cases co <;> cases op <;>
      simp [get_cached_data_by_key, increment_request_count, hen, hcor, loadsWire]

/-- Witness for `store_ops_error_safety`: a raising client keeps all
three operations at their safe defaults on a concrete store. -/
theorem store_ops_error_safety_witness :
    get_cached_data_by_key cfgOn ⟨false, false⟩ st0 "k" = (none, st0)
    ∧ store_data_with_key cfgOn ⟨false, false⟩ st0 "k" (.json (.num 3)) none 0 = (false, st0)
    ∧ increment_request_count cfgOn ⟨false, false⟩ st0 "k" = (none, st0) :=
  (store_ops_error_safety cfgOn ⟨false, false⟩ st0 "k" "tag" "s" (.json (.num 3)) none 0).1
    (Or.inl rfl)

/-! ### C8/C9 — file-cache eviction sweep -/

/-- A sweep in which no removal fails processes every file: it removes
exactly the strictly-too-old regular files and keeps the rest. -/
theorem cleanLoop_no_fail (now m : Int) :
    ∀ files : List FSFile, (∀ f ∈ files, f.removeFails = false) →
    cleanLoop now m files =
      ((files.filter fun f => !f.isDir && decide (now - f.mtime > m)).length,
       files.filter (fun f => f.isDir || !decide (now - f.mtime > m)), false) := by
  intro files hok
  induction files with
  | nil => simp [cleanLoop]
  | cons f rest ih =>
    have hf : f.removeFails = false := hok f (by simp)
    have hrest : ∀ g ∈ rest, g.removeFails = false := fun g hg => hok g (by simp [hg])
    by_cases hd : f.isDir = true
    · simp [cleanLoop, hd, ih hrest]
    · simp only [Bool.not_eq_true] at hd
      by_cases hage : now - f.mtime > m
      · simp [cleanLoop, hd, hage, hf, ih hrest]
      · simp [cleanLoop, hd, hage, ih hrest]

/-- **C8.**  With no I/O errors, `clean_expired_files` removes a listing
entry exactly when it is a regular file whose age `now - mtime` is
strictly greater than `max_age_days * 86400` seconds — a file exactly at
the threshold survives — and it returns the number of files removed. -/
theorem clean_expired_files_boundary (files : List FSFile) (now : Int) (d : Nat)
    (hok : ∀ f ∈ files, f.removeFails = false) :
    clean_expired_files files now d =
      ((files.filter fun f => !f.isDir && decide (now - f.mtime > (d : Int) * 86400)).length,
       files.filter (fun f => f.isDir || !decide (now - f.mtime > (d : Int) * 86400))) := by
  simp [clean_expired_files, cleanLoop_no_fail now ((d : Int) * 86400) files hok]

/-- Witness for `clean_expired_files_boundary`: with `max_age_days = 7`
and `now = 7*86400 + 100`, a file of age exactly `7*86400` survives while
a file one second older is removed, and the count is 1. -/
theorem clean_expired_files_boundary_witness :
    clean_expired_files [⟨"keep", false, 100, false⟩, ⟨"old", false, 99, false⟩] 604900 7
      = (1, [⟨"keep", false, 100, false⟩]) := by
  rw [clean_expired_files_boundary _ _ _ (by decide)]
  rfl

/-- **C9 counterexample.**  The claim says an error on one file is
skipped and the sweep continues: on the listing `[bad, old]` (both
strictly too old, removing `bad` raises) that would remove `old` and
return `(1, [bad])`.  The implementation's `try` wraps the whole loop, so
the exception aborts the sweep: nothing is removed and the result is
`(0, [bad, old])`. -/
theorem clean_expired_files_abort_cex :
    clean_expired_files [⟨"bad", false, 0, true⟩, ⟨"old", false, 0, false⟩] 864000 7
      = (0, [⟨"bad", false, 0, true⟩, ⟨"old", false, 0, false⟩])
    ∧ clean_expired_files [⟨"bad", false, 0, true⟩, ⟨"old", false, 0, false⟩] 864000 7
      ≠ (1, [⟨"bad", false, 0, true⟩]) :=
  ⟨rfl, by decide⟩

/-- The loop aborts at the first failing removal: files before it are
processed normally, the failing file and everything after it survive. -/
theorem cleanLoop_abort (now m : Int) (f : FSFile) (L2 : List FSFile)
    (hf : f.removeFails = true) (hdir : f.isDir = false) (hold : now - f.mtime > m) :
    ∀ L1 : List FSFile, (∀ g ∈ L1, g.removeFails = false) →
    cleanLoop now m (L1 ++ f :: L2) =
      ((L1.filter fun g => !g.isDir && decide (now - g.mtime > m)).length,
       (L1.filter fun g => g.isDir || !decide (now - g.mtime > m)) ++ f :: L2, true) := by
  intro L1 hok
  induction L1 with
  | nil => simp [cleanLoop, hdir, hold, hf]
  | cons g rest ih =>
    have hg : g.removeFails = false := hok g (by simp)
    have hrest : ∀ x ∈ rest, x.removeFails = false := fun x hx => hok x (by simp [hx])
    by_cases hd : g.isDir = true
    · simp [cleanLoop, hd, ih hrest]
    · simp only [Bool.not_eq_true] at hd
      by_cases hage : now - g.mtime > m
      · simp [cleanLoop, hd, hage, hg, ih hrest]
      · simp [cleanLoop, hd, hage, ih hrest]

/-- **C9 (amended).**  An error while removing an individual file aborts
the rest of the sweep (the enclosing `try` wraps the whole loop): files
listed after the failing one are not examined, the failing file survives,
and the returned count is the number of files removed before the error. -/
theorem clean_expired_files_error_aborts_sweep (L1 L2 : List FSFile) (f : FSFile)
    (now : Int) (d : Nat)
    (hok : ∀ g ∈ L1, g.removeFails = false)
    (hf : f.removeFails = true) (hdir : f.isDir = false)
    (hold : now - f.mtime > (d : Int) * 86400) :
    clean_expired_files (L1 ++ f :: L2) now d =
      ((L1.filter fun g => !g.isDir && decide (now - g.mtime > (d : Int) * 86400)).length,
       (L1.filter fun g => g.isDir || !decide (now - g.mtime > (d : Int) * 86400)) ++ f :: L2) := by
  simp [clean_expired_files,
        cleanLoop_abort now ((d : Int) * 86400) f L2 hf hdir hold L1 hok]

/-- Witness for `clean_expired_files_error_aborts_sweep`: one old file is
removed, then the failing file stops the sweep before the last old file. -/
theorem clean_expired_files_error_aborts_sweep_witness :
    clean_expired_files
      [⟨"a", false, 0, false⟩, ⟨"bad", false, 1, true⟩, ⟨"b", false, 2, false⟩] 864000 7
      = (1, [⟨"bad", false, 1, true⟩, ⟨"b", false, 2, false⟩]) := by
  have h := clean_expired_files_error_aborts_sweep [⟨"a", false, 0, false⟩]
    [⟨"b", false, 2, false⟩] ⟨"bad", false, 1, true⟩ 864000 7
    (by decide) rfl rfl (by decide)
  simpa using h

/-! ### C2 — what a hit returns -/

/-- **C2 counterexample.**  The claim says a hit returns only the `data`
field with the metadata stripped, so that put-then-get round-trips the
payload.  Storing the payload `42` and reading it back returns the whole
stored record `{"data": 42, "cached_at": 100, "request_count": 1}`, not
`42`: `get_cached_data_by_key` returns `json.loads(cached_result)`
unprojected. -/
theorem get_does_not_strip_metadata_cex :
    (get_cached_data_by_key cfgOn envOk
        (store_data_with_key cfgOn envOk st0 "k" (.json (.num 42)) none 100).2 "k").1
      = some (.obj [("data", .num 42), ("cached_at", .num 100), ("request_count", .num 1)])
    ∧ (get_cached_data_by_key cfgOn envOk
        (store_data_with_key cfgOn envOk st0 "k" (.json (.num 42)) none 100).2 "k").1
      ≠ some (.num 42) := by
  refine ⟨rfl, ?_⟩
  intro h
  have h' : some (JValue.obj
      [("data", .num 42), ("cached_at", .num 100), ("request_count", .num 1)])
      = some (JValue.num 42) := h
  simp at h'

/-- **C2 (amended).**  On a cache hit, get returns the full stored entry
— the payload under `"data"` together with the `cached_at` and
`request_count` metadata.  A put of a payload followed immediately by a
get with the same key returns `{"data": payload, "cached_at": now,
"request_count": 1}`, from which the payload is recoverable as the
`data` field (it is not returned on its own). -/
theorem put_then_get_returns_full_entry (cfg : Config) (env : Env) (st : RedisState)
    (k : String) (v : JValue) (exp : Option Nat) (now : Int)
    (hen : cfg.enabled = true) (hco : env.connOk = true) (hop : env.opFail = false) :
    store_data_with_key cfg env st k (.json v) exp now
      = (true, rsetex st k
          (.ofJson (.obj [("data", v), ("cached_at", .num now), ("request_count", .num 1)]))
          (exp.getD cfg.expiration))
    ∧ (get_cached_data_by_key cfg env
        (store_data_with_key cfg env st k (.json v) exp now).2 k).1
      = some (.obj [("data", v), ("cached_at", .num now), ("request_count", .num 1)])
    ∧ getField [("data", v), ("cached_at", .num now), ("request_count", .num 1)] "data"
      = some v := by
  refine ⟨?_, ?_, rfl⟩
  · simp [store_data_with_key, hen, hco, hop]
  · simp [get_cached_data_by_key, store_data_with_key, hen, hco, hop,
          rget_rsetex_self, loadsWire]

/-- Witness for `put_then_get_returns_full_entry` at a concrete store. -/
theorem put_then_get_returns_full_entry_witness :
    store_data_with_key cfgOn envOk st0 "k" (.json (.str "pay")) none 7
      = (true, rsetex st0 "k"
          (.ofJson (.obj [("data", .str "pay"), ("cached_at", .num 7), ("request_count", .num 1)]))
          604800)
    ∧ (get_cached_data_by_key cfgOn envOk
        (store_data_with_key cfgOn envOk st0 "k" (.json (.str "pay")) none 7).2 "k").1
      = some (.obj [("data", .str "pay"), ("cached_at", .num 7), ("request_count", .num 1)])
    ∧ getField [("data", .str "pay"), ("cached_at", .num 7), ("request_count", .num 1)] "data"
      = some (.str "pay") :=
  put_then_get_returns_full_entry cfgOn envOk st0 "k" (.str "pay") none 7 rfl rfl rfl

/-! ### C4 — increment and TTL -/

/-- **C4 counterexample.**  The claim says the remaining TTL is extended
to at least the configured default (604800 s) when shorter.  On an entry
with 5 s remaining, `increment_request_count` issues
`expire(key, max(5, 604800))` but the following `setex(key, 5, ...)`
resets the TTL to 5, so the final TTL is 5, not ≥ 604800. -/
theorem increment_no_ttl_extension_cex :
    increment_request_count cfgOn envOk
        ⟨[("k", .ofJson (.obj [("data", .num 1), ("cached_at", .num 0), ("request_count", .num 1)]), 5)]⟩ "k"
      = (some 2,
         ⟨[("k", .ofJson (.obj [("data", .num 1), ("cached_at", .num 0), ("request_count", .num 2)]), 5)]⟩)
    ∧ rttlInt (increment_request_count cfgOn envOk
        ⟨[("k", .ofJson (.obj [("data", .num 1), ("cached_at", .num 0), ("request_count", .num 1)]), 5)]⟩ "k").2 "k"
      = 5
    ∧ ¬(604800 : Int) ≤ rttlInt (increment_request_count cfgOn envOk
        ⟨[("k", .ofJson (.obj [("data", .num 1), ("cached_at", .num 0), ("request_count", .num 1)]), 5)]⟩ "k").2 "k" :=
  ⟨rfl, rfl, by decide⟩

/-- **C4 (amended).**  `increment_request_count` reads the current entry,
increments `request_count` by one, and rewrites the entry preserving
exactly the original remaining TTL: the `expire(key, max(ttl, default))`
it issues first is immediately overwritten by `setex(key, ttl, ...)`, so
no extension to the configured default takes place.  If the key has
expired or been deleted before the increment reads it, the operation is a
no-op returning nothing. -/
theorem increment_request_count_preserves_ttl (cfg : Config) (env : Env)
    (st : RedisState) (k : String) (fs : List (String × JValue)) (n : Int) (t : Nat) :
    (env.connOk = true → env.opFail = false → rget st k = none →
      increment_request_count cfg env st k = (none, st))
    ∧ (env.connOk = true → env.opFail = false →
       rget st k = some (.ofJson (.obj fs)) →
       getField fs "request_count" = some (.num n) →
       rttlInt st k = (t : Int) → 0 < t →
         increment_request_count cfg env st k
           = (some (n + 1),
              rsetex (rexpire st k (max (t : Int) (cfg.expiration : Int)).toNat) k
                (.ofJson (.obj (setField fs "request_count" (.num (n + 1))))) t)
         ∧ rttlInt (increment_request_count cfg env st k).2 k = (t : Int)) := by
  constructor
  · intro hco hop hget
    simp [increment_request_count, hco, hop, hget]
  · intro hco hop hget hcnt httl hpos
    have hpos' : (0 : Int) < (t : Int) := by exact_mod_cast hpos
    have hmain : increment_request_count cfg env st k
        = (some (n + 1),
           rsetex (rexpire st k (max (t : Int) (cfg.expiration : Int)).toNat) k
             (.ofJson (.obj (setField fs "request_count" (.num (n + 1))))) t) := by
      simp [increment_request_count, hco, hop, hget, loadsWire, hcnt, httl, hpos']
    refine ⟨hmain, ?_⟩
    rw [hmain]
    exact rttl_rsetex_self _ _ _ _

/-- Witness for `increment_request_count_preserves_ttl`: both the
missing-key no-op and the short-TTL rewrite at concrete inputs. -/
theorem increment_request_count_preserves_ttl_witness :
    increment_request_count cfgOn envOk st0 "k" = (none, st0)
    ∧ (increment_request_count cfgOn envOk
        ⟨[("k", .ofJson (.obj [("data", .num 9), ("cached_at", .num 0), ("request_count", .num 3)]), 60)]⟩ "k"
        = (some 4,
           rsetex (rexpire
             ⟨[("k", .ofJson (.obj [("data", .num 9), ("cached_at", .num 0), ("request_count", .num 3)]), 60)]⟩
             "k" (max (60 : Int) ((604800 : Nat) : Int)).toNat) "k"
             (.ofJson (.obj (setField
               [("data", .num 9), ("cached_at", .num 0), ("request_count", .num 3)]
               "request_count" (.num 4)))) 60)
       ∧ rttlInt (increment_request_count cfgOn envOk
           ⟨[("k", .ofJson (.obj [("data", .num 9), ("cached_at", .num 0), ("request_count", .num 3)]), 60)]⟩ "k").2 "k"
         = (60 : Int)) :=
  ⟨(increment_request_count_preserves_ttl cfgOn envOk st0 "k" [] 0 1).1 rfl rfl rfl,
   (increment_request_count_preserves_ttl cfgOn envOk
      ⟨[("k", .ofJson (.obj [("data", .num 9), ("cached_at", .num 0), ("request_count", .num 3)]), 60)]⟩
      "k" [("data", .num 9), ("cached_at", .num 0), ("request_count", .num 3)] 3 60).2
    rfl rfl rfl rfl rfl (by omega)⟩

/-! ### C5 — popularity monotonicity -/

/-- `d.get("request_count")` on an entry-shaped field list. -/
theorem getField_entry (v : JValue) (now c : Int) :
    getField [("data", v), ("cached_at", .num now), ("request_count", .num c)]
      "request_count" = some (.num c) := rfl

/-- `d["request_count"] = x` on an entry-shaped field list. -/
theorem setField_entry (v : JValue) (now c x : Int) :
    setField [("data", v), ("cached_at", .num now), ("request_count", .num c)]
      "request_count" (.num x)
      = [("data", v), ("cached_at", .num now), ("request_count", .num x)] := rfl

/-- Reading the stored count off an entry-shaped record. -/
theorem storedCount_entry (st : RedisState) (k : String) (v : JValue) (now c : Int)
    (h : rget st k = some (.ofJson
      (.obj [("data", v), ("cached_at", .num now), ("request_count", .num c)]))) :
    storedCount st k = some c := by
  simp [storedCount, h, getField_entry]

/-- One hitting get: returns the (pre-increment) full entry, and leaves
the store holding the entry with `request_count` bumped by one under the
same TTL. -/
theorem get_hit_step (cfg : Config) (env : Env) (st : RedisState) (k : String)
    (v : JValue) (now c : Int) (t : Nat)
    (hen : cfg.enabled = true) (hco : env.connOk = true) (hop : env.opFail = false)
    (hget : rget st k = some (.ofJson
      (.obj [("data", v), ("cached_at", .num now), ("request_count", .num c)])))
    (httl : rttlInt st k = (t : Int)) (hpos : 0 < t) :
    (get_cached_data_by_key cfg env st k).1
      = some (.obj [("data", v), ("cached_at", .num now), ("request_count", .num c)])
    ∧ rget (get_cached_data_by_key cfg env st k).2 k
      = some (.ofJson (.obj [("data", v), ("cached_at", .num now), ("request_count", .num (c + 1))]))
    ∧ rttlInt (get_cached_data_by_key cfg env st k).2 k = (t : Int) := by
  have hpos' : (0 : Int) < (t : Int) := by exact_mod_cast hpos
  have hstep : get_cached_data_by_key cfg env st k
      = (some (.obj [("data", v), ("cached_at", .num now), ("request_count", .num c)]),
         rsetex (rexpire st k (max (t : Int) (cfg.expiration : Int)).toNat) k
           (.ofJson (.obj [("data", v), ("cached_at", .num now), ("request_count", .num (c + 1))])) t) := by
    simp [get_cached_data_by_key, increment_request_count, hen, hco, hop, hget,
          loadsWire, getField_entry, setField_entry, httl, hpos']
  rw [hstep]
  exact ⟨rfl, rget_rsetex_self _ _ _ _, rttl_rsetex_self _ _ _ _⟩

/-- After `n` hitting gets the stored count has grown by `n`, with the
TTL still positive throughout. -/
theorem getNTimes_invariant (cfg : Config) (env : Env) (k : String)
    (v : JValue) (now : Int) (t : Nat)
    (hen : cfg.enabled = true) (hco : env.connOk = true) (hop : env.opFail = false)
    (hpos : 0 < t) :
    ∀ (n : Nat) (st : RedisState) (c : Int),
      rget st k = some (.ofJson
        (.obj [("data", v), ("cached_at", .num now), ("request_count", .num c)])) →
      rttlInt st k = (t : Int) →
      rget (getNTimes cfg env n st k) k
        = some (.ofJson (.obj [("data", v), ("cached_at", .num now), ("request_count", .num (c + n))]))
      ∧ rttlInt (getNTimes cfg env n st k) k = (t : Int) := by
  intro n
  induction n with
  | zero =>
    intro st c hget httl
    simpa [getNTimes] using ⟨hget, httl⟩
  | succ m ih =>
    intro st c hget httl
    obtain ⟨-, hget', httl'⟩ :=
      get_hit_step cfg env st k v now c t hen hco hop hget httl hpos
    have h := ih (get_cached_data_by_key cfg env st k).2 (c + 1) hget' httl'
    have harith : c + 1 + (m : Int) = c + ((m : Nat) + 1 : Nat) := by push_cast; ring
    constructor
    · rw [getNTimes, ← harith]
      exact h.1
    · rw [getNTimes]
      exact h.2

/-- **C5.**  A put writes the entry with `request_count = 1` (so the
count is reset to 1 exactly by a rewrite), and after `n` sequential
hitting gets the stored count equals `1 + n` — each hit adds one, so the
count never decreases over the lifetime of the key. -/
theorem request_count_after_n_hits (cfg : Config) (env : Env) (st : RedisState)
    (k : String) (v : JValue) (exp : Option Nat) (now : Int) (n : Nat)
    (hen : cfg.enabled = true) (hco : env.connOk = true) (hop : env.opFail = false)
    (hpos : 0 < exp.getD cfg.expiration) :
    storedCount (store_data_with_key cfg env st k (.json v) exp now).2 k = some 1
    ∧ storedCount
        (getNTimes cfg env n (store_data_with_key cfg env st k (.json v) exp now).2 k) k
      = some (1 + (n : Int)) := by
  have hput : (store_data_with_key cfg env st k (.json v) exp now).2
      = rsetex st k
          (.ofJson (.obj [("data", v), ("cached_at", .num now), ("request_count", .num 1)]))
          (exp.getD cfg.expiration) := by
    simp [store_data_with_key, hen, hco, hop]
  have hget1 : rget (store_data_with_key cfg env st k (.json v) exp now).2 k
      = some (.ofJson (.obj [("data", v), ("cached_at", .num now), ("request_count", .num 1)])) := by
    rw [hput]; exact rget_rsetex_self _ _ _ _
  have httl1 : rttlInt (store_data_with_key cfg env st k (.json v) exp now).2 k
      = ((exp.getD cfg.expiration : Nat) : Int) := by
    rw [hput]; exact rttl_rsetex_self _ _ _ _
  obtain ⟨hfin, -⟩ := getNTimes_invariant cfg env k v now (exp.getD cfg.expiration)
    hen hco hop hpos n (store_data_with_key cfg env st k (.json v) exp now).2 1 hget1 httl1
  exact ⟨storedCount_entry _ _ v now 1 hget1, storedCount_entry _ _ v now (1 + (n : Int)) (by simpa using hfin)⟩

/-- Witness for `request_count_after_n_hits`: three hitting gets after a
put leave the stored count at 4. -/
theorem request_count_after_n_hits_witness :
    storedCount (store_data_with_key cfgOn envOk st0 "k" (.json (.num 8)) none 0).2 "k" = some 1
    ∧ storedCount
        (getNTimes cfgOn envOk 3 (store_data_with_key cfgOn envOk st0 "k" (.json (.num 8)) none 0).2 "k") "k"
      = some (1 + ((3 : Nat) : Int)) :=
  request_count_after_n_hits cfgOn envOk st0 "k" (.num 8) none 0 3 rfl rfl rfl (by decide)

/-! ### C1 — key-order invariance of key derivation -/

theorem sortFields_perm (l : List (String × JValue)) : (sortFields l).Perm l :=
  List.perm_insertionSort fieldLe l

/-- Strict lexicographic comparison is asymmetric. -/
theorem charsLt_asymm : ∀ (l m : List Char), charsLt l m = true → charsLt m l = false := by
  intro l
  induction l with
  | nil => intro m _; cases m <;> simp [charsLt]
  | cons c cs ih =>
    intro m h
    cases m with
    | nil => simp [charsLt] at h
    | cons d ds =>
      rw [charsLt] at h ⊢
      by_cases h₁ : c.toNat < d.toNat
      · have h₂ : ¬ d.toNat < c.toNat := by omega
        simp [h₁, h₂]
      · by_cases h₂ : d.toNat < c.toNat
        · simp [h₁, h₂] at h
        · simp only [h₁, h₂, if_false] at h ⊢
          exact ih ds h

/-- Strict lexicographic comparison is transitive. -/
theorem charsLt_trans : ∀ (l m n : List Char),
    charsLt l m = true → charsLt m n = true → charsLt l n = true := by
  intro l
  induction l with
  | nil =>
    intro m n h₁ h₂
    cases m with
    | nil => simp [charsLt] at h₁
    | cons d ds =>
      cases n with
      | nil => simp [charsLt] at h₂
      | cons e es => simp [charsLt]
  | cons c cs ih =>
    intro m n h₁ h₂
    cases m with
    | nil => simp [charsLt] at h₁
    | cons d ds =>
      cases n with
      | nil => simp [charsLt] at h₂
      | cons e es =>
        rw [charsLt] at h₁ h₂ ⊢
        by_cases hcd : c.toNat < d.toNat
        · by_cases hde : d.toNat < e.toNat
          · have : c.toNat < e.toNat := by omega
            simp [this]
          · by_cases hed : e.toNat < d.toNat
            · simp [hde, hed] at h₂
            · have : c.toNat < e.toNat := by omega
              simp [this]
        · by_cases hdc : d.toNat < c.toNat
          · simp [hcd, hdc] at h₁
          · by_cases hde : d.toNat < e.toNat
            · have : c.toNat < e.toNat := by omega
              simp [this]
            · by_cases hed : e.toNat < d.toNat
              · simp [hde, hed] at h₂
              · have h₁' : charsLt cs ds = true := by simpa [hcd, hdc] using h₁
                have h₂' : charsLt ds es = true := by simpa [hde, hed] using h₂
                have hce : ¬ c.toNat < e.toNat := by omega
                have hec : ¬ e.toNat < c.toNat := by omega
                simp only [hce, hec, if_false]
                exact ih ds es h₁' h₂'

/-- Lexicographic trichotomy: two mutually non-smaller sequences are
equal. -/
theorem charsLt_eq_of_not : ∀ (l m : List Char),
    charsLt l m = false → charsLt m l = false → l = m := by
  intro l
  induction l with
  | nil =>
    intro m h₁ _
    cases m with
    | nil => rfl
    | cons d ds => simp [charsLt] at h₁
  | cons c cs ih =>
    intro m h₁ h₂
    cases m with
    | nil => simp [charsLt] at h₂
    | cons d ds =>
      rw [charsLt] at h₁ h₂
      by_cases hcd : c.toNat < d.toNat
      · simp [hcd] at h₁
      · by_cases hdc : d.toNat < c.toNat
        · simp [hdc, hcd] at h₂
        · have hnat : c.toNat = d.toNat := by omega
          have hcde : c = d := Char.ext (UInt32.ext hnat)
          have h₁' : charsLt cs ds = false := by simpa [hcd, hdc] using h₁
          have h₂' : charsLt ds cs = false := by simpa [hcd, hdc] using h₂
          rw [hcde, ih ds h₁' h₂']

/-- `fieldLe` is total. -/
theorem fieldLe_total (a b : String × JValue) : fieldLe a b ∨ fieldLe b a := by
  unfold fieldLe
  cases h : charsLt b.1.data a.1.data with
  | false => exact Or.inl rfl
  | true => exact Or.inr (charsLt_asymm _ _ h)

/-- `fieldLe` is transitive. -/
theorem fieldLe_trans (a b c : String × JValue) :
    fieldLe a b → fieldLe b c → fieldLe a c := by
  unfold fieldLe
  intro h₁ h₂
  cases h₃ : charsLt c.1.data a.1.data with
  | false => rfl
  | true =>
    exfalso
    cases h₄ : charsLt b.1.data c.1.data with
    | true => exact absurd (charsLt_trans _ _ _ h₄ h₃) (by simp [h₁])
    | false =>
      have hbc : b.1.data = c.1.data := charsLt_eq_of_not _ _ h₄ h₂
      rw [← hbc] at h₃
      exact absurd h₃ (by simp [h₁])

/-- `fieldLt` is (vacuously) antisymmetric. -/
theorem fieldLt_antisymm (a b : String × JValue) : fieldLt a b → fieldLt b a → a = b := by
  unfold fieldLt
  intro h₁ h₂
  exact absurd h₂ (by simp [charsLt_asymm _ _ h₁])

theorem sortFields_sorted (l : List (String × JValue)) :
    List.Sorted fieldLe (sortFields l) :=
  @List.sorted_insertionSort _ fieldLe _ ⟨fieldLe_total⟩ ⟨fieldLe_trans⟩ l

/-- A `fieldLe`-sorted list with pairwise distinct keys is strictly
sorted by key. -/
theorem pairwise_lt_of_sorted_nodup :
    ∀ (l : List (String × JValue)), List.Sorted fieldLe l →
      l.Pairwise (fun a b => a.1 ≠ b.1) → List.Pairwise fieldLt l := by
  intro l
  induction l with
  | nil => intro _ _; exact List.Pairwise.nil
  | cons a l ih =>
    intro hs hn
    obtain ⟨h₁, h₂⟩ := List.sorted_cons.mp hs
    obtain ⟨h₃, h₄⟩ := List.pairwise_cons.mp hn
    refine List.Pairwise.cons (fun b hb => ?_) (ih h₂ h₄)
    show charsLt a.1.data b.1.data = true
    cases hab : charsLt a.1.data b.1.data with
    | true => rfl
    | false =>
      exfalso
      have hba : charsLt b.1.data a.1.data = false := h₁ b hb
      exact h₃ b hb (congrArg String.mk (charsLt_eq_of_not _ _ hab hba))

/-- Sorting by key is invariant under permutation of a duplicate-free
field list: this is why `sorted(obj.items())` cancels dict insertion
order. -/
theorem sortFields_eq_of_perm {l₁ l₂ : List (String × JValue)}
    (hp : l₁.Perm l₂) (hn : (l₁.map Prod.fst).Nodup) :
    sortFields l₁ = sortFields l₂ := by
  have hk₁ : ((sortFields l₁).map Prod.fst).Nodup :=
    (((sortFields_perm l₁).map Prod.fst).symm).nodup hn
  have hk₂ : ((sortFields l₂).map Prod.fst).Nodup :=
    (((sortFields_perm l₂).map Prod.fst).symm).nodup ((hp.map Prod.fst).nodup hn)
  have hs₁ : List.Pairwise fieldLt (sortFields l₁) :=
    pairwise_lt_of_sorted_nodup _ (sortFields_sorted l₁) (List.pairwise_map.mp hk₁)
  have hs₂ : List.Pairwise fieldLt (sortFields l₂) :=
    pairwise_lt_of_sorted_nodup _ (sortFields_sorted l₂) (List.pairwise_map.mp hk₂)
  exact @List.eq_of_perm_of_sorted _ fieldLt ⟨fieldLt_antisymm⟩ _ _
    ((sortFields_perm l₁).trans (hp.trans (sortFields_perm l₂).symm)) hs₁ hs₂

theorem sortValuesFields_eq_map (fs : List (String × JValue)) :
    sortValuesFields fs = fs.map (fun e => (e.1, sort_dict_recursive e.2)) := by
  induction fs with
  | nil => rfl
  | cons e fs ih =>
    obtain ⟨k, v⟩ := e
    simp [sortValuesFields, ih]

theorem jwfFields_mem : ∀ (fs : List (String × JValue)),
    jwfFields fs = true ↔ ∀ e ∈ fs, jwf e.2 = true := by
  intro fs
  induction fs with
  | nil => simp [jwfFields]
  | cons e fs ih =>
    obtain ⟨k, v⟩ := e
    simp [jwfFields, Bool.and_eq_true, ih]

theorem nodupKeysB_iff : ∀ (fs : List (String × JValue)),
    nodupKeysB fs = true ↔ (fs.map Prod.fst).Nodup := by
  intro fs
  induction fs with
  | nil => simp [nodupKeysB]
  | cons e fs ih =>
    obtain ⟨k, v⟩ := e
    simp only [nodupKeysB, Bool.and_eq_true, Bool.not_eq_true', List.any_eq_false,
               beq_iff_eq, List.map_cons, List.nodup_cons, ih, List.mem_map, not_exists]
    tauto

mutual

/-- Recursive key-sorting maps equivalent well-formed values to the same
canonical form. -/
theorem sortRec_congr (a b : JValue) (ha : jwf a = true) (hb : jwf b = true)
    (h : JEquiv a b) : sort_dict_recursive a = sort_dict_recursive b := by
  cases h with
  | null => rfl
  | bool _ => rfl
  | num _ => rfl
  | str _ => rfl
  | arr h' =>
    rw [jwf] at ha hb
    simp only [sort_dict_recursive]
    rw [sortListValues_congr _ _ ha hb h']
  | obj hperm hpt =>
    rename_i fs gs gs'
    rw [jwf, Bool.and_eq_true] at ha hb
    have hgs' : jwfFields gs' = true :=
      (jwfFields_mem gs').mpr fun e he => (jwfFields_mem gs).mp hb.2 e (hperm.subset he)
    have h1 : sortValuesFields fs = sortValuesFields gs' :=
      sortFieldsValues_congr fs gs' ha.2 hgs' hpt
    have hperm2 : (sortValuesFields gs').Perm (sortValuesFields gs) := by
      rw [sortValuesFields_eq_map, sortValuesFields_eq_map]
      exact hperm.map _
    have hkeys : ((sortValuesFields gs').map Prod.fst).Nodup := by
      rw [sortValuesFields_eq_map, List.map_map]
      have hcomp : (Prod.fst ∘ fun e : String × JValue => (e.1, sort_dict_recursive e.2))
          = Prod.fst := funext fun _ => rfl
      rw [hcomp]
      exact ((hperm.map Prod.fst).symm).nodup ((nodupKeysB_iff gs).mp hb.1)
    simp only [sort_dict_recursive]
    rw [h1, sortFields_eq_of_perm hperm2 hkeys]

/-- Pointwise version of `sortRec_congr` for array elements. -/
theorem sortListValues_congr (xs ys : List JValue) (ha : jwfList xs = true)
    (hb : jwfList ys = true) (h : JEquivList xs ys) :
    sortValuesList xs = sortValuesList ys := by
  cases h with
  | nil => rfl
  | cons hxy hrest =>
    rw [jwfList, Bool.and_eq_true] at ha hb
    simp only [sortValuesList]
    rw [sortRec_congr _ _ ha.1 hb.1 hxy, sortListValues_congr _ _ ha.2 hb.2 hrest]

/-- Pointwise version of `sortRec_congr` for field values. -/
theorem sortFieldsValues_congr (fs gs : List (String × JValue))
    (ha : jwfFields fs = true) (hb : jwfFields gs = true) (h : JEquivFields fs gs) :
    sortValuesFields fs = sortValuesFields gs := by
  cases h with
  | nil => rfl
  | cons k hvw hrest =>
    rw [jwfFields, Bool.and_eq_true] at ha hb
    simp only [sortValuesFields]
    rw [sortRec_congr _ _ ha.1 hb.1 hvw, sortFieldsValues_congr _ _ ha.2 hb.2 hrest]

end

set_option maxRecDepth 100000 in
/-- **C1.**  Key derivation is invariant under mapping key order: any two
well-formed parameter mappings that are equal as sets of key/value pairs
regardless of insertion order (including nested mappings) produce the
same cache key; concretely, `{"b": 2, "a": 1}` and `{"a": 1, "b": 2}`
share a key, `[{"b":2,"a":1}]` and `[{"a":1,"b":2}]` share a key, and the
latter differs from the key of `[{"a":1,"b":2},{"c":3}]`. -/
theorem cache_key_order_invariant (fs gs : List (String × JValue))
    (ha : jwf (.obj fs) = true) (hb : jwf (.obj gs) = true)
    (h : JEquiv (.obj fs) (.obj gs)) :
    _generate_cache_key (.obj fs) = _generate_cache_key (.obj gs)
    ∧ _generate_cache_key (.obj [("b", .num 2), ("a", .num 1)])
      = _generate_cache_key (.obj [("a", .num 1), ("b", .num 2)])
    ∧ _generate_cache_key (.arr [.obj [("b", .num 2), ("a", .num 1)]])
      = _generate_cache_key (.arr [.obj [("a", .num 1), ("b", .num 2)]])
    ∧ _generate_cache_key (.arr [.obj [("a", .num 1), ("b", .num 2)]])
      ≠ _generate_cache_key (.arr [.obj [("a", .num 1), ("b", .num 2)], .obj [("c", .num 3)]]) := by
  refine ⟨?_, ?_, ?_, ?_⟩
  · have hrec := sortRec_congr (.obj fs) (.obj gs) ha hb h
    show keyOfString (serializeCacheInput (.obj fs))
      = keyOfString (serializeCacheInput (.obj gs))
    simp only [serializeCacheInput]
    rw [hrec]
  · exact congrArg keyOfString (by decide :
      serializeCacheInput (.obj [("b", .num 2), ("a", .num 1)])
        = serializeCacheInput (.obj [("a", .num 1), ("b", .num 2)]))
  · exact congrArg keyOfString (by decide :
      serializeCacheInput (.arr [.obj [("b", .num 2), ("a", .num 1)]])
        = serializeCacheInput (.arr [.obj [("a", .num 1), ("b", .num 2)]]))
  · decide

/-- Witness for `cache_key_order_invariant` at the claim's concrete
mappings (`{"b": 2, "a": 1}` versus `{"a": 1, "b": 2}`). -/
theorem cache_key_order_invariant_witness :
    _generate_cache_key (.obj [("b", .num 2), ("a", .num 1)])
      = _generate_cache_key (.obj [("a", .num 1), ("b", .num 2)])
    ∧ _generate_cache_key (.obj [("b", .num 2), ("a", .num 1)])
      = _generate_cache_key (.obj [("a", .num 1), ("b", .num 2)])
    ∧ _generate_cache_key (.arr [.obj [("b", .num 2), ("a", .num 1)]])
      = _generate_cache_key (.arr [.obj [("a", .num 1), ("b", .num 2)]])
    ∧ _generate_cache_key (.arr [.obj [("a", .num 1), ("b", .num 2)]])
      ≠ _generate_cache_key (.arr [.obj [("a", .num 1), ("b", .num 2)], .obj [("c", .num 3)]]) :=
  cache_key_order_invariant [("b", .num 2), ("a", .num 1)] [("a", .num 1), ("b", .num 2)]
    (by decide) (by decide)
    (JEquiv.obj (List.Perm.swap ("a", .num 1) ("b", .num 2) [])
      (JEquivFields.cons "b" (JEquiv.num 2) (JEquivFields.cons "a" (JEquiv.num 1) JEquivFields.nil)))

/-! ### C10 — `analysis_type` and key derivation -/

/-- Overwriting a key with the value it already holds leaves a dict
unchanged. -/
theorem setField_self : ∀ (fs : List (String × JValue)) (k : String) (v : JValue),
    getField fs k = some v → setField fs k v = fs := by
  intro fs
  induction fs with
  | nil => intro k v h; simp [getField] at h
  | cons e fs ih =>
    intro k v h
    obtain ⟨k', w⟩ := e
    by_cases hk : (k' == k) = true
    · rw [getField] at h
      simp only [hk, if_true, Option.some.injEq] at h
      simp [setField, hk, beq_iff_eq.mp hk, h]
    · rw [getField] at h
      simp only [hk, if_false] at h
      simp [setField, hk, ih _ _ h]

set_option maxRecDepth 1000000 in
/-- **C10 counterexample.**  The claim says the store key and the get key
coincide only when `analysis_type` is empty, so that with a non-empty
`analysis_type` a get immediately after the store with identical
arguments misses.  For `p = {"_type": "ndvi"}` and `analysis_type =
"ndvi"` (non-empty), `store_data`'s `data_copy["_type"] = analysis_type`
overwrites the field with the value it already has, both keys coincide,
and the get hits the entry just written. -/
theorem store_get_same_key_with_type_cex :
    ("ndvi" : String) ≠ ""
    ∧ (get_cached_data cfgOn envOk
        (store_data cfgOn envOk st0 [("_type", .str "ndvi")] "ndvi" none 0).2
        [("_type", .str "ndvi")] "ndvi").1
      = some (.obj [("data", .obj [("_type", .str "ndvi")]),
                    ("cached_at", .num 0), ("request_count", .num 1)]) :=
  ⟨by decide, rfl⟩

set_option maxRecDepth 1000000 in
/-- **C10 (amended).**  `get_cached_data` derives its key from the params
alone — the `analysis_type` argument is never incorporated — while
`store_data` with a non-empty `analysis_type` derives its key from the
params with `"_type"` set to it (and from the params alone when it is
empty).  The two key inputs therefore coincide when `analysis_type` is
empty, and also when the params already map `"_type"` to `analysis_type`;
when the extension genuinely changes the mapping the keys can differ and
the get then misses the entry just written: concretely, for
`p = {"region": "X"}` and `analysis_type = "ndvi"` the two keys differ
and a get immediately following the store with identical arguments
misses. -/
theorem store_get_analysis_type_keys (cfg : Config) (env : Env) (st : RedisState)
    (p : List (String × JValue)) (t t' : String) (exp : Option Nat) (now : Int) :
    get_cached_data cfg env st p t = get_cached_data cfg env st p t'
    ∧ (cfg.enabled = true →
        get_cached_data cfg env st p t
          = get_cached_data_by_key cfg env st (_generate_cache_key (.obj p)))
    ∧ (cfg.enabled = true → t ≠ "" →
        store_data cfg env st p t exp now
          = (if (store_data_with_key cfg env st
                  (_generate_cache_key (.obj (setField p "_type" (.str t))))
                  (.json (.obj p)) exp now).1
             then some (_generate_cache_key (.obj (setField p "_type" (.str t))))
             else none,
             (store_data_with_key cfg env st
                (_generate_cache_key (.obj (setField p "_type" (.str t))))
                (.json (.obj p)) exp now).2))
    ∧ (cfg.enabled = true →
        store_data cfg env st p "" exp now
          = (if (store_data_with_key cfg env st (_generate_cache_key (.obj p))
                  (.json (.obj p)) exp now).1
             then some (_generate_cache_key (.obj p)) else none,
             (store_data_with_key cfg env st (_generate_cache_key (.obj p))
                (.json (.obj p)) exp now).2))
    ∧ (getField p "_type" = some (.str t) → setField p "_type" (.str t) = p)
    ∧ _generate_cache_key (.obj (setField [("region", .str "X")] "_type" (.str "ndvi")))
      ≠ _generate_cache_key (.obj [("region", .str "X")])
    ∧ (get_cached_data cfgOn envOk
        (store_data cfgOn envOk st0 [("region", .str "X")] "ndvi" none 0).2
        [("region", .str "X")] "ndvi").1 = none := by
  refine ⟨rfl, ?_, ?_, ?_, ?_, ?_, ?_⟩
  · intro hen
    simp [get_cached_data, hen]
  · intro hen ht
    simp [store_data, hen, ht]
  · intro hen
    simp [store_data, hen]
  · intro h
    exact setField_self p "_type" (.str t) h
  · decide
  · rfl

/-- Witness for `store_get_analysis_type_keys`: the get key ignores the
type argument, and an already-present `"_type"` field is overwritten in
place with an equal value. -/
theorem store_get_analysis_type_keys_witness :
    get_cached_data cfgOn envOk st0 [("a", .num 1)] "x"
      = get_cached_data cfgOn envOk st0 [("a", .num 1)] "y"
    ∧ setField [("_type", .str "ndvi")] "_type" (.str "ndvi") = [("_type", .str "ndvi")] :=
  ⟨(store_get_analysis_type_keys cfgOn envOk st0 [("a", .num 1)] "x" "y" none 0).1,
   (store_get_analysis_type_keys cfgOn envOk st0 [("_type", .str "ndvi")] "ndvi" "ndvi" none 0).2.2.2.2.1
     rfl⟩

end CacheUtils
